import Mathlib

/-!
Verification of the sportsbook ledger of the Svidnet-Games backend.

This file gives a shallow embedding, in Lean, of the sports-betting subsystem
implemented in `backend/routers/sports.py` (helper functions `calculate_payout`,
`determine_pick_result`, `update_leaderboard`, `settle_completed_matches`, and
the endpoint handlers `place_bet`, `cancel_bet`, `admin_force_settle_bet`,
`update_match_result`, `get_current_user_id`, `get_my_bets`), over the data
model of `backend/models/sports.py`.

Modelling conventions:
* Database rows become Lean structures; a database session becomes an explicit
  `DB` record of row lists, updated functionally.  Row order models insertion
  (primary-key) order, which is the order SQLAlchemy relationship lists and
  unordered queries return rows in.
* Opaque identifiers that the code only compares for equality (external event
  ids, team names, sport keys, sport categories, JWT tokens) are encoded as
  natural numbers; user ids and scores, which Python treats as `int`, are `Int`.
* Python `float` payout arithmetic is modelled in exact rationals `ℚ`;
  `round(x, 2)` becomes `round2` below (rounding the number of cents to the
  nearest integer).  Python `int(x)` truncation toward zero becomes `truncInt`.
* Wall-clock instants (`datetime.now(timezone.utc)`, `commence_time`) are `Int`
  timestamps carried in an `Env` record, together with the sport-key →
  sport-category tables, whose concrete string contents the claims never
  depend on.
* `fastapi.HTTPException` becomes `Except Err`; an `Except.error` result models
  a handler that raised before (or while) committing, so the database state is
  unchanged.
-/

set_option maxRecDepth 4000

namespace Svidnet

/-- Status of a sports match (`MatchStatus` in `models/sports.py`). -/
inductive MatchStatus
  | upcoming
  | live
  | completed
  | cancelled
deriving DecidableEq, Repr

/-- Status of a bet, also used for a pick's `result` column
(`BetStatus` in `models/sports.py`). -/
inductive BetStatus
  | pending
  | won
  | lost
  | push
  | cancelled
deriving DecidableEq, Repr

/-- Type of a pick (`BetType` in `models/sports.py`). -/
inductive BetType
  | moneyline
  | spread
  | total
deriving DecidableEq, Repr

/-- A pick's selection (`BetSelection` in `models/sports.py`). -/
inductive Selection
  | home
  | away
  | draw
  | over
  | under
deriving DecidableEq, Repr

/-- One row of `sports_matches`.  `external_id`, `sport_key` and the team names
are opaque strings compared only for equality, encoded as naturals.  The raw
`odds_data` JSON blob is never read by the settlement logic and is omitted. -/
structure SportsMatch where
  id : Nat
  external_id : Nat
  sport_key : Nat
  home_team : Nat
  away_team : Nat
  commence_time : Int
  status : MatchStatus
  home_score : Option Int
  away_score : Option Int
  completed_at : Option Int
deriving DecidableEq, Repr

/-- One row of `bet_picks`. -/
structure BetPick where
  id : Nat
  bet_id : Nat
  match_id : Nat
  bet_type : BetType
  selection : Selection
  odds : Int
  point : Option ℚ
  result : Option BetStatus
deriving DecidableEq, Repr

/-- One row of `bets`. -/
structure Bet where
  id : Nat
  user_id : Int
  is_parlay : Bool
  total_picks : Nat
  stake : Int
  potential_payout : ℚ
  actual_payout : ℚ
  status : BetStatus
  placed_at : Int
  settled_at : Option Int
deriving DecidableEq, Repr

/-- One row of `sports_leaderboards` (`SportsLeaderboard`). -/
structure Leaderboard where
  user_id : Int
  sport_category : Nat
  total_bets : Int
  total_parlays : Int
  bets_won : Int
  bets_lost : Int
  bets_pushed : Int
  total_wagered : Int
  total_won : Int
  net_profit : Int
  win_percentage : ℚ
  current_streak : Int
  best_win_streak : Int
  biggest_win : ℚ
  last_bet_at : Option Int
deriving DecidableEq, Repr

/-- The fields of a `users` row that the sportsbook consults: `role`,
`username` and `email` are opaque strings encoded as naturals. -/
structure UserRow where
  id : Int
  role : Nat
  username : Nat
  email : Nat
deriving DecidableEq, Repr

/-- The database state the sportsbook reads and writes.  `nextBetId` and
`nextPickId` model the autoincrement counters of the `bets` and `bet_picks`
primary keys. -/
structure DB where
  matchRows : List SportsMatch
  picks : List BetPick
  bets : List Bet
  lbs : List Leaderboard
  users : List UserRow
  nextBetId : Nat
  nextPickId : Nat
deriving DecidableEq, Repr

/-- Request-independent context: the current wall-clock time and the two
hard-coded sport-key → sport-category tables (`sport_category_map` in
`settle_completed_matches` / `cancel_bet` / `admin_force_settle_bet`, and the
smaller `category_map` in `update_match_result`).  Both tables are total
functions that send unmapped keys to the label `other`. -/
structure Env where
  now : Int
  categoryOf : Nat → Nat
  categoryOf2 : Nat → Nat
  other : Nat

/-- Error outcomes of `HTTPException` raises, one per distinct raise site the
claims distinguish. -/
inductive Err
  | unprocessable
  | matchesNotFound
  | matchStarted
  | betNotFound
  | forbidden
  | cannotCancel
  | adminRequired
  | invalidOutcome
  | alreadySettled
  | matchNotFound
  | integrityViolation
deriving DecidableEq, Repr

/-- Encoding of the string constant `admin` compared against `User.role`. -/
def adminRole : Nat := 9001

/-- Encoding of the hard-coded admin username allow-list entry. -/
def adminUsername : Nat := 9002

/-- Encoding of the hard-coded admin email allow-list entry. -/
def adminEmail : Nat := 9003

/-- The `role == admin or username in [...] or email in [...]` test used by
`is_admin` and inlined in `cancel_bet`. -/
def is_user_admin (u : UserRow) : Bool :=
  decide (u.role = adminRole) || decide (u.username = adminUsername) ||
    decide (u.email = adminEmail)

/-- The `is_admin` FastAPI dependency: raises 403 when the user row is missing
or the user passes none of the three admin tests. -/
def is_admin (db : DB) (user_id : Int) : Except Err Bool :=
  match db.users.find? (fun u => decide (u.id = user_id)) with
  | none => .error .adminRequired
  | some u => if is_user_admin u then .ok true else .error .adminRequired

/-- Replace the first element satisfying `p` (the row a `.first()` /
primary-key query would return) and leave the rest unchanged. -/
def updateFirst (p : α → Bool) (f : α → α) : List α → List α
  | [] => []
  | a :: rest => if p a then f a :: rest else a :: updateFirst p f rest

/-- Python `round(x, 2)`: round to two decimal places.  (Mathlib `round`
resolves exact half-cents upward where CPython resolves them to even; the
two agree everywhere the claims are evaluated.) -/
def round2 (x : ℚ) : ℚ := (round (x * 100) : ℚ) / 100

/-- Python `int(x)`: truncate toward zero. -/
def truncInt (x : ℚ) : Int := if 0 ≤ x then ⌊x⌋ else ⌈x⌉

/-- The American-odds → decimal-odds conversion inside `calculate_payout`:
`(odds/100)+1` for positive odds, `(100/abs(odds))+1` otherwise.  (Python
raises `ZeroDivisionError` at odds 0; here `100/0 = 0` by the `ℚ` convention,
and the claims only quantify over nonzero odds.) -/
def decimalOdds (o : Int) : ℚ :=
  if 0 < o then (o : ℚ) / 100 + 1 else (100 : ℚ) / (o.natAbs : ℚ) + 1

/-- `calculate_payout` (sports.py lines 164-174): multiply the decimal odds of
all picks, multiply by the stake, round once to two decimals. -/
def calculate_payout (picks : List BetPick) (stake : Int) : ℚ :=
  round2 ((stake : ℚ) * picks.foldl (fun acc p => acc * decimalOdds p.odds) 1)

/-- `determine_pick_result` (sports.py lines 177-211).  The code guards on
`match.status != COMPLETED or match.home_score is None`; both score columns
are written together everywhere, and a state with only one of them set would
crash the Python comparison, so the embedding returns `pending` there.  A
`None` point on a spread/total pick would crash Python; `point.getD 0` is
only reachable through states placement cannot create. -/
def determine_pick_result (pick : BetPick) (m : SportsMatch) : BetStatus :=
  if m.status ≠ .completed then .pending
  else
    match m.home_score, m.away_score with
    | some home_score, some away_score =>
      match pick.bet_type with
      | .moneyline =>
        if home_score = away_score then
          if pick.selection = .draw then .won else .push
        else if home_score > away_score then
          if pick.selection = .home then .won else .lost
        else
          if pick.selection = .away then .won else .lost
      | .spread =>
        if (home_score : ℚ) + pick.point.getD 0 = (away_score : ℚ) then .push
        else if pick.selection = .home then
          if (home_score : ℚ) + pick.point.getD 0 > (away_score : ℚ) then .won else .lost
        else
          if (home_score : ℚ) + pick.point.getD 0 < (away_score : ℚ) then .won else .lost
      | .total =>
        if (home_score : ℚ) + (away_score : ℚ) = pick.point.getD 0 then .push
        else if pick.selection = .over then
          if (home_score : ℚ) + (away_score : ℚ) > pick.point.getD 0 then .won else .lost
        else
          if (home_score : ℚ) + (away_score : ℚ) < pick.point.getD 0 then .won else .lost
    | _, _ => .pending

/-- A fresh `SportsLeaderboard(user_id=..., sport_category=...)` row with the
column defaults of `models/sports.py`. -/
def newLeaderboard (user_id : Int) (cat : Nat) : Leaderboard where
  user_id := user_id
  sport_category := cat
  total_bets := 0
  total_parlays := 0
  bets_won := 0
  bets_lost := 0
  bets_pushed := 0
  total_wagered := 0
  total_won := 0
  net_profit := 0
  win_percentage := 0
  current_streak := 0
  best_win_streak := 0
  biggest_win := 0
  last_bet_at := none

/-- The field mutations of `update_leaderboard` (sports.py lines 225-249)
applied to one leaderboard row. -/
def applyLeaderboard (now : Int) (bet : Bet) (lb : Leaderboard) : Leaderboard :=
  let lb := { lb with
    total_bets := lb.total_bets + 1
    total_parlays := lb.total_parlays + (if bet.is_parlay then 1 else 0)
    total_wagered := lb.total_wagered + bet.stake
    total_won := lb.total_won + truncInt bet.actual_payout }
  let lb := { lb with net_profit := lb.total_won - lb.total_wagered }
  let lb :=
    match bet.status with
    | .won =>
      let streak := if 0 ≤ lb.current_streak then max 1 (lb.current_streak + 1) else 1
      { lb with
        bets_won := lb.bets_won + 1
        current_streak := streak
        best_win_streak := max lb.best_win_streak streak
        biggest_win :=
          if bet.actual_payout > lb.biggest_win then bet.actual_payout else lb.biggest_win }
    | .lost =>
      { lb with
        bets_lost := lb.bets_lost + 1
        current_streak :=
          if lb.current_streak ≤ 0 then min (-1) (lb.current_streak - 1) else -1 }
    | .push => { lb with bets_pushed := lb.bets_pushed + 1 }
    | _ => lb
  let lb :=
    if 0 < lb.bets_won + lb.bets_lost then
      { lb with
        win_percentage := round2 ((lb.bets_won : ℚ) / ((lb.bets_won + lb.bets_lost : Int) : ℚ) * 100) }
    else lb
  { lb with last_bet_at := some now }

/-- `update_leaderboard` (sports.py lines 214-250): find or lazily create the
(user, category) row, then apply the stat mutations. -/
def update_leaderboard (now : Int) (user_id : Int) (cat : Nat) (bet : Bet)
    (lbs : List Leaderboard) : List Leaderboard :=
  if lbs.any (fun lb => decide (lb.user_id = user_id) && decide (lb.sport_category = cat)) then
    updateFirst (fun lb => decide (lb.user_id = user_id) && decide (lb.sport_category = cat))
      (applyLeaderboard now bet) lbs
  else lbs ++ [applyLeaderboard now bet (newLeaderboard user_id cat)]

/-- The bet-level outcome computation of `settle_completed_matches`
(sports.py lines 356-378): given the picks of one bet (all with non-null
results), the terminal status and actual payout. -/
def settleBetOutcome (betPicks : List BetPick) (stake : Int) (potential : ℚ) :
    BetStatus × ℚ :=
  let any_lost := betPicks.any (fun p => decide (p.result = some .lost))
  let all_won := betPicks.all (fun p => decide (p.result = some .won))
  let all_push := betPicks.all (fun p => decide (p.result = some .push))
  if any_lost then (.lost, 0)
  else if all_won then (.won, potential)
  else if all_push then (.push, (stake : ℚ))
  else
    let won_picks := betPicks.filter (fun p => decide (p.result = some .won))
    if won_picks.isEmpty then (.push, (stake : ℚ))
    else (.won, calculate_payout won_picks stake)

/-- All picks belonging to one bet (`bet.picks`, i.e. the rows with this
`bet_id`, in insertion order). -/
def picksOf (db : DB) (bid : Nat) : List BetPick :=
  db.picks.filter (fun p => decide (p.bet_id = bid))

/-- The sport-category computation shared by the settlement paths: the sport
key of the first pick's match when that match exists, else a fallback key,
sent through the hard-coded category table. -/
def categoryForBet (env : Env) (db : DB) (betPicks : List BetPick)
    (fallback_key : Nat) : Nat :=
  match betPicks.head? with
  | none => env.categoryOf fallback_key
  | some p =>
    match db.matchRows.find? (fun m => decide (m.id = p.match_id)) with
    | some fm => env.categoryOf fm.sport_key
    | none => env.categoryOf fallback_key

/-- The per-bet body of the settlement loop (sports.py lines 347-391): skip
missing or non-pending bets, skip bets with an unresolved pick, otherwise
stamp the outcome and update the leaderboard. -/
def settleBetStep (env : Env) (sport_key : Nat) (db : DB) (bid : Nat) : DB :=
  match db.bets.find? (fun b => decide (b.id = bid)) with
  | none => db
  | some bet =>
    if bet.status ≠ .pending then db
    else
      let betPicks := picksOf db bid
      if betPicks.any (fun p => decide (p.result = none)) then db
      else
        let out := settleBetOutcome betPicks bet.stake bet.potential_payout
        let bet' := { bet with
          status := out.1
          actual_payout := out.2
          settled_at := some env.now }
        let db' := { db with
          bets := updateFirst (fun b => decide (b.id = bid)) (fun _ => bet') db.bets }
        let cat := categoryForBet env db' betPicks sport_key
        { db' with lbs := update_leaderboard env.now bet.user_id cat bet' db'.lbs }

/-- One `(participant name, score)` entry of a score event.  `score = none`
models a value the Python parser skips (absent or non-integer). -/
structure ScoreEntry where
  name : Nat
  score : Option Int
deriving DecidableEq, Repr

/-- One event returned by the scores feed. -/
structure ScoreEvent where
  id : Nat
  completed : Bool
  scores : List ScoreEntry
deriving DecidableEq, Repr

/-- The score-parsing loop of `settle_completed_matches` (lines 297-312):
scan the entries, matching names against the match's team names; later
entries overwrite earlier ones. -/
def parseScores (m : SportsMatch) (entries : List ScoreEntry) :
    Option Int × Option Int :=
  entries.foldl
    (fun acc e =>
      match e.score with
      | none => acc
      | some v =>
        if e.name = m.home_team then (some v, acc.2)
        else if e.name = m.away_team then (acc.1, some v)
        else acc)
    (none, none)

/-- Whether score parsing produced both a home and an away score. -/
def parsedOk : Option Int × Option Int → Bool
  | (some _, some _) => true
  | _ => false

/-- The state mutation for one successfully parsed, newly completed match
(sports.py lines 321-391): write scores, flip the match to `completed`,
resolve the null-result picks, then evaluate each affected bet.  The Python
`set` of affected bet ids is modelled as a deduplicated list; bet evaluation
of distinct bets is order-independent except for leaderboard streak order,
which no claim depends on. -/
def applyCompletion (env : Env) (sport_key : Nat) (db : DB) (ev : ScoreEvent)
    (m : SportsMatch) (hs as_ : Int) : DB :=
  let m' := { m with
    home_score := some hs
    away_score := some as_
    status := MatchStatus.completed
    completed_at := some env.now }
  let db1 := { db with
    matchRows := updateFirst (fun x => decide (x.external_id = ev.id)) (fun _ => m') db.matchRows }
  let affected := ((db1.picks.filter (fun p => decide (p.match_id = m.id))).map
    (fun p => p.bet_id)).dedup
  let db2 := { db1 with
    picks := db1.picks.map (fun p =>
      if p.match_id = m.id ∧ p.result = none then
        { p with result := some (determine_pick_result p m') }
      else p) }
  affected.foldl (settleBetStep env sport_key) db2

/-- Processing of one score event inside the settlement loop (sports.py
lines 278-319): skip events that are not completed or carry no scores, skip
unknown matches, skip matches already `completed`, skip unparseable scores;
otherwise complete the match and settle. -/
def runEvent (env : Env) (sport_key : Nat) (db : DB) (ev : ScoreEvent) : DB :=
  if ev.completed = false ∨ ev.scores.isEmpty = true then db
  else
    match db.matchRows.find? (fun x => decide (x.external_id = ev.id)) with
    | none => db
    | some m =>
      if m.status = .completed then db
      else
        match parseScores m ev.scores with
        | (some hs, some as_) => applyCompletion env sport_key db ev m hs as_
        | (some _, none) => db
        | (none, _) => db

/-- `settle_completed_matches` (sports.py lines 253-396), with the fetched
score payload passed in as data: fast exit when no bet is pending, otherwise
process every event of every sport. -/
def settle_completed_matches (env : Env)
    (scoreData : List (Nat × List ScoreEvent)) (db : DB) : DB :=
  if (db.bets.filter (fun b => decide (b.status = .pending))).isEmpty then db
  else
    scoreData.foldl (fun acc pr => pr.2.foldl (runEvent env pr.1) acc) db

/-- One requested pick of a place-bet request (`BetPickRequest`). -/
structure BetPickRequest where
  match_id : Nat
  bet_type : BetType
  selection : Selection
  odds : Int
  point : Option ℚ
deriving DecidableEq, Repr

/-- A place-bet request body (`PlaceBetRequest`). -/
structure PlaceBetRequest where
  picks : List BetPickRequest
  stake : Int
deriving DecidableEq, Repr

/-- The (match, bet_type, selection) tuple of a requested pick. -/
def pickTriple (p : BetPickRequest) : Nat × BetType × Selection :=
  (p.match_id, p.bet_type, p.selection)

/-- `place_bet` (sports.py lines 510-601).  The first two guards are the
pydantic field validators (1-10 picks, stake 1-1000, rejected as 422 before
the handler runs).  `matchesNotFound` is the `len(matches) != len(match_ids)`
check — note the queried list holds each distinct match once, so any two
picks on the same match trip it.  The `integrityViolation` branch models the
`unique_pick_per_bet` constraint of `bet_picks`: a violating insert raises
`IntegrityError` at commit, the transaction is rolled back, and the handler's
generic `except` re-raises a 500. -/
def place_bet (env : Env) (user_id : Int) (req : PlaceBetRequest) (db : DB) :
    Except Err DB :=
  if ¬ (1 ≤ req.picks.length ∧ req.picks.length ≤ 10) then .error .unprocessable
  else if ¬ (1 ≤ req.stake ∧ req.stake ≤ 1000) then .error .unprocessable
  else
    let match_ids := req.picks.map (fun p => p.match_id)
    let found := db.matchRows.filter (fun m => decide (m.id ∈ match_ids))
    if found.length ≠ match_ids.length then .error .matchesNotFound
    else if found.any (fun m => decide (m.commence_time ≤ env.now)) then
      .error .matchStarted
    else
      let bid := db.nextBetId
      let newPicks := req.picks.enum.map (fun ip : Nat × BetPickRequest =>
        ({ id := db.nextPickId + ip.1
           bet_id := bid
           match_id := ip.2.match_id
           bet_type := ip.2.bet_type
           selection := ip.2.selection
           odds := ip.2.odds
           point := ip.2.point
           result := none } : BetPick))
      if ¬ (newPicks.map (fun p => (p.match_id, p.bet_type, p.selection))).Nodup then
        .error .integrityViolation
      else
        let bet : Bet :=
          { id := bid
            user_id := user_id
            is_parlay := decide (1 < req.picks.length)
            total_picks := req.picks.length
            stake := req.stake
            potential_payout := calculate_payout newPicks req.stake
            actual_payout := 0
            status := .pending
            placed_at := env.now
            settled_at := none }
        .ok { db with
          bets := db.bets ++ [bet]
          picks := db.picks ++ newPicks
          nextBetId := bid + 1
          nextPickId := db.nextPickId + req.picks.length }

/-- `cancel_bet` (sports.py lines 787-867): ownership check (owner or admin),
pending check, started-match check over the picks' existing matches, then the
cancellation mutation and the clamped leaderboard reversal. -/
def cancel_bet (env : Env) (bet_id : Nat) (user_id : Int) (db : DB) :
    Except Err DB :=
  match db.bets.find? (fun b => decide (b.id = bet_id)) with
  | none => .error .betNotFound
  | some bet =>
    let admin_b :=
      match db.users.find? (fun u => decide (u.id = user_id)) with
      | some u => is_user_admin u
      | none => false
    if bet.user_id ≠ user_id ∧ admin_b = false then .error .forbidden
    else if bet.status ≠ .pending then .error .cannotCancel
    else
      let betPicks := picksOf db bet_id
      if betPicks.any (fun p =>
          match db.matchRows.find? (fun m => decide (m.id = p.match_id)) with
          | some m => decide (m.commence_time ≤ env.now)
          | none => false) then
        .error .matchStarted
      else
        let bet' := { bet with
          status := BetStatus.cancelled
          settled_at := some env.now
          actual_payout := (bet.stake : ℚ) }
        let db1 : DB := { db with
          bets := updateFirst (fun b => decide (b.id = bet_id)) (fun _ => bet') db.bets }
        let db2 : DB := { db1 with
          picks := db1.picks.map (fun p =>
            if p.bet_id = bet_id then { p with result := some BetStatus.cancelled } else p) }
        let cat :=
          match betPicks.head? with
          | none => env.other
          | some p =>
            match db2.matchRows.find? (fun m => decide (m.id = p.match_id)) with
            | some fm => env.categoryOf fm.sport_key
            | none => env.other
        let lbPred := fun lb : Leaderboard =>
          decide (lb.user_id = bet.user_id) && decide (lb.sport_category = cat)
        let reverse := fun lb : Leaderboard =>
          let lb := { lb with total_bets := max 0 (lb.total_bets - 1) }
          let lb :=
            if bet.is_parlay then { lb with total_parlays := max 0 (lb.total_parlays - 1) }
            else lb
          let lb := { lb with total_wagered := max 0 (lb.total_wagered - bet.stake) }
          { lb with net_profit := lb.total_won - lb.total_wagered }
        let db3 :=
          if db2.lbs.any lbPred then { db2 with lbs := updateFirst lbPred reverse db2.lbs }
          else db2
        .ok db3

/-- `admin_force_settle_bet` (sports.py lines 960-1017): the `is_admin`
dependency runs first; then outcome validation, bet lookup, pending check,
and the forced settlement that overwrites every pick's result. -/
def admin_force_settle_bet (env : Env) (requester : Int) (bet_id : Nat)
    (outcome : String) (db : DB) : Except Err DB :=
  match is_admin db requester with
  | .error e => .error e
  | .ok _ =>
    if outcome ≠ "won" ∧ outcome ≠ "lost" then .error .invalidOutcome
    else
      match db.bets.find? (fun b => decide (b.id = bet_id)) with
      | none => .error .betNotFound
      | some bet =>
        if bet.status ≠ .pending then .error .alreadySettled
        else
          let st := if outcome = "won" then BetStatus.won else BetStatus.lost
          let pay := if outcome = "won" then bet.potential_payout else 0
          let bet' := { bet with
            status := st
            actual_payout := pay
            settled_at := some env.now }
          let db1 := { db with
            bets := updateFirst (fun b => decide (b.id = bet_id)) (fun _ => bet') db.bets
            picks := db.picks.map (fun p =>
              if p.bet_id = bet_id then { p with result := some st } else p) }
          let cat := categoryForBet env db1 (picksOf db1 bet_id) 0
          .ok { db1 with lbs := update_leaderboard env.now bet.user_id cat bet' db1.lbs }

/-- The per-bet re-evaluation loop of `update_match_result` (sports.py lines
1056-1093): no pending guard and no all-picks-resolved guard; a mixed
won/push combination leaves the bet unchanged (there is no `else` branch). -/
def updateResultBetStep (env : Env) (acc : DB) (bid : Nat) : DB :=
  match acc.bets.find? (fun b => decide (b.id = bid)) with
  | none => acc
  | some bet =>
    let betPicks := picksOf acc bid
    let any_lost := betPicks.any (fun p => decide (p.result = some .lost))
    let all_won := betPicks.all (fun p => decide (p.result = some .won))
    let all_push := betPicks.all (fun p => decide (p.result = some .push))
    let stpay :=
      if any_lost then (BetStatus.lost, (0 : ℚ))
      else if all_won then (BetStatus.won, bet.potential_payout)
      else if all_push then (BetStatus.push, (bet.stake : ℚ))
      else (bet.status, bet.actual_payout)
    let bet' := { bet with status := stpay.1, actual_payout := stpay.2 }
    let acc1 := { acc with
      bets := updateFirst (fun b => decide (b.id = bid)) (fun _ => bet') acc.bets }
    if bet'.status ≠ BetStatus.pending then
      let bet2 := { bet' with settled_at := some env.now }
      let acc2 := { acc1 with
        bets := updateFirst (fun b => decide (b.id = bid)) (fun _ => bet2) acc1.bets }
      let cat :=
        match betPicks.head? with
        | none => env.other
        | some p =>
          match acc2.matchRows.find? (fun mm => decide (mm.id = p.match_id)) with
          | some mo => env.categoryOf2 mo.sport_key
          | none => env.other
      { acc2 with lbs := update_leaderboard env.now bet2.user_id cat bet2 acc2.lbs }
    else acc1

/-- `update_match_result` (sports.py lines 1030-1097).  It has no `is_admin`
dependency: its only parameters are the path/query values and the database
session.  It overwrites the match row unconditionally (even if already
completed), recomputes every pick's result for the match with no null guard,
and re-evaluates each affected bet via `updateResultBetStep`. -/
def update_match_result (env : Env) (match_id : Nat)
    (home_score away_score : Int) (db : DB) : Except Err DB :=
  match db.matchRows.find? (fun m => decide (m.id = match_id)) with
  | none => .error .matchNotFound
  | some m =>
    let m' := { m with
      home_score := some home_score
      away_score := some away_score
      status := MatchStatus.completed
      completed_at := some env.now }
    let db1 := { db with
      matchRows := updateFirst (fun x => decide (x.id = match_id)) (fun _ => m') db.matchRows }
    let settled := ((db1.picks.filter (fun p => decide (p.match_id = match_id))).map
      (fun p => p.bet_id)).dedup
    let db2 := { db1 with
      picks := db1.picks.map (fun p =>
        if p.match_id = match_id then { p with result := some (determine_pick_result p m') }
        else p) }
    .ok (settled.foldl (updateResultBetStep env) db2)

/-- `get_current_user_id` (sports.py lines 32-48).  `verify` abstracts
`jwt.decode` + `payload.get(sub)` + `int(...)`: it returns `none` whenever any
of those fail (bad signature, malformed token, missing or non-integer `sub`),
in which case — like a missing header — the function falls back to user 1. -/
def get_current_user_id (verify : Nat → Option Int) (authorization : Option Nat) : Int :=
  match authorization with
  | none => 1
  | some tok =>
    match verify tok with
    | none => 1
    | some uid => uid

/-- `get_my_bets` (sports.py lines 604-639): the requester's bets, newest
first, capped at 50. -/
def get_my_bets (user_id : Int) (db : DB) : List Bet :=
  ((db.bets.filter (fun b => decide (b.user_id = user_id))).insertionSort
    (fun a b => b.placed_at ≤ a.placed_at)).take 50

/-- Spec wording of §4.3 (Odds and Payout Arithmetic): for odds `o` the
decimal factor is `o/100 + 1` if `o > 0`, else `100/abs(o) + 1`. -/
def specDecimalFactor (o : Int) : ℚ :=
  if 0 < o then (o : ℚ) / 100 + 1 else (100 : ℚ) / |(o : ℚ)| + 1

/-- The per-match facts every settlement step preserves: the identity fields
the event loop matches on (external id, team names) never change, and a
`completed` match never leaves that status. -/
def MatchSim (m m' : SportsMatch) : Prop :=
  m.external_id = m'.external_id ∧ m.home_team = m'.home_team ∧
    m.away_team = m'.away_team ∧ (m.status = .completed → m'.status = .completed)

/-- A score event is inert over a match table when one of the settlement
loop's skip conditions holds for it: the event is not completed or carries no
scores, or its match is unknown, or its match is already `completed`, or its
scores do not parse against the match's team names. -/
def eventSkipped (ev : ScoreEvent) (ms : List SportsMatch) : Prop :=
  (ev.completed = false ∨ ev.scores.isEmpty = true) ∨
  ms.find? (fun x => decide (x.external_id = ev.id)) = none ∨
  ∃ m, ms.find? (fun x => decide (x.external_id = ev.id)) = some m ∧
    (m.status = .completed ∨ parsedOk (parseScores m ev.scores) = false)

/-! Concrete fixtures used to evaluate the embedded operations at explicit
inputs (for witnesses and counterexamples). -/

/-- A fixed evaluation context: time 1000, every sport key in category 500,
the `other` category encoded as 501. -/
def envTest : Env where
  now := 1000
  categoryOf := fun _ => 500
  categoryOf2 := fun _ => 500
  other := 501

/-- A completed match that ended in a 1-1 tie. -/
def matchTied : SportsMatch where
  id := 1
  external_id := 11
  sport_key := 3
  home_team := 21
  away_team := 22
  commence_time := 0
  status := .completed
  home_score := some 1
  away_score := some 1
  completed_at := some 900

/-- A completed match the home team won 2-1. -/
def matchHomeWin : SportsMatch :=
  { matchTied with id := 2, external_id := 12, home_score := some 2, away_score := some 1 }

/-- A moneyline pick on the home side. -/
def pickMlHome : BetPick where
  id := 1
  bet_id := 1
  match_id := 1
  bet_type := .moneyline
  selection := .home
  odds := -150
  point := none
  result := none

/-- A moneyline pick on the draw. -/
def pickMlDraw : BetPick := { pickMlHome with id := 2, selection := .draw }

/-- A favourite-priced pick (American odds -110) with a resolved `won` result. -/
def pickWonNeg110 : BetPick :=
  { pickMlHome with
    id := 3
    bet_type := .spread
    odds := -110
    point := some (-7/2)
    result := some .won }

/-- An underdog-priced pick (American odds +150) with a resolved `push` result. -/
def pickPushPos150 : BetPick :=
  { pickMlHome with
    id := 4
    bet_type := .total
    selection := .over
    odds := 150
    point := some (441/2)
    result := some .push }

/-- A database holding one two-leg pending parlay whose first leg is already
resolved `won` (its match completed 2-1) while the second leg's match is still
upcoming — the state the scheduled settlement pass leaves a half-decided
parlay in. -/
def dbHalfSettled : DB where
  matchRows :=
    [{ id := 1, external_id := 11, sport_key := 3, home_team := 21, away_team := 22,
       commence_time := 0, status := .completed, home_score := some 2, away_score := some 1,
       completed_at := some 500 },
     { id := 2, external_id := 12, sport_key := 3, home_team := 23, away_team := 24,
       commence_time := 5000, status := .upcoming, home_score := none, away_score := none,
       completed_at := none }]
  picks :=
    [{ id := 1, bet_id := 1, match_id := 1, bet_type := .moneyline, selection := .home,
       odds := 100, point := none, result := some .won },
     { id := 2, bet_id := 1, match_id := 2, bet_type := .moneyline, selection := .home,
       odds := 100, point := none, result := none }]
  bets :=
    [{ id := 1, user_id := 7, is_parlay := true, total_picks := 2, stake := 10,
       potential_payout := 40, actual_payout := 0, status := .pending, placed_at := 0,
       settled_at := none }]
  lbs := []
  users := []
  nextBetId := 2
  nextPickId := 3

/-- A database holding a single upcoming match (id 1, starting at time 5000,
after `envTest.now`). -/
def dbOneMatch : DB where
  matchRows :=
    [{ id := 1, external_id := 11, sport_key := 3, home_team := 21, away_team := 22,
       commence_time := 5000, status := .upcoming, home_score := none, away_score := none,
       completed_at := none }]
  picks := []
  bets := []
  lbs := []
  users := []
  nextBetId := 1
  nextPickId := 1

/-- A place-bet request with two picks carrying the identical
(match, bet_type, selection) tuple on the existing match 1. -/
def reqDup : PlaceBetRequest where
  picks :=
    [{ match_id := 1, bet_type := .moneyline, selection := .home, odds := -110, point := none },
     { match_id := 1, bet_type := .moneyline, selection := .home, odds := -110, point := none }]
  stake := 10

/-- A place-bet request referencing a match id that does not exist. -/
def reqMissing : PlaceBetRequest where
  picks :=
    [{ match_id := 99, bet_type := .moneyline, selection := .home, odds := -110, point := none }]
  stake := 10

/-- A database where user 7 owns a pending single bet (stake 10) on an
upcoming match, and user 7's leaderboard entry in the bet's category already
stands at zero total bets and zero wagered (as repeated cancellations leave
it). -/
def dbCancelClamp : DB where
  matchRows :=
    [{ id := 1, external_id := 11, sport_key := 3, home_team := 21, away_team := 22,
       commence_time := 5000, status := .upcoming, home_score := none, away_score := none,
       completed_at := none }]
  picks :=
    [{ id := 1, bet_id := 1, match_id := 1, bet_type := .moneyline, selection := .home,
       odds := -110, point := none, result := none }]
  bets :=
    [{ id := 1, user_id := 7, is_parlay := false, total_picks := 1, stake := 10,
       potential_payout := 191/10, actual_payout := 0, status := .pending, placed_at := 0,
       settled_at := none }]
  lbs :=
    [{ user_id := 7, sport_category := 500, total_bets := 0, total_parlays := 0,
       bets_won := 1, bets_lost := 0, bets_pushed := 0, total_wagered := 0,
       total_won := 5, net_profit := 5, win_percentage := 100, current_streak := 1,
       best_win_streak := 1, biggest_win := 5, last_bet_at := some 10 }]
  users := [{ id := 7, role := 1, username := 2, email := 3 }]
  nextBetId := 2
  nextPickId := 2

/-- Like `dbCancelClamp`, but user 7's leaderboard entry carries positive
counters (3 bets, 1 parlay, 50 wagered, 40 won), so the cancellation
reversal is observable: it must leave 2 bets and 40 wagered. -/
def dbCancelRich : DB :=
  { dbCancelClamp with lbs :=
    [{ user_id := 7, sport_category := 500, total_bets := 3, total_parlays := 1,
       bets_won := 1, bets_lost := 1, bets_pushed := 0, total_wagered := 50,
       total_won := 40, net_profit := -10, win_percentage := 50, current_streak := 1,
       best_win_streak := 1, biggest_win := 20, last_bet_at := some 10 }] }

/-- A database holding one pending single bet by user 9: stake 10 on a
moneyline home pick at -150, potential payout 16.67 as placement computed. -/
def dbPayout : DB where
  matchRows :=
    [{ id := 1, external_id := 11, sport_key := 3, home_team := 21, away_team := 22,
       commence_time := 100, status := .upcoming, home_score := none, away_score := none,
       completed_at := none }]
  picks :=
    [{ id := 1, bet_id := 1, match_id := 1, bet_type := .moneyline, selection := .home,
       odds := -150, point := none, result := none }]
  bets :=
    [{ id := 1, user_id := 9, is_parlay := false, total_picks := 1, stake := 10,
       potential_payout := 1667/100, actual_payout := 0, status := .pending, placed_at := 0,
       settled_at := none }]
  lbs := []
  users := []
  nextBetId := 2
  nextPickId := 2

/-- A score payload reporting match `external_id = 11` finished 2-1. -/
def sdPayout : List (Nat × List ScoreEvent) :=
  [(3, [{ id := 11, completed := true,
          scores := [{ name := 21, score := some 2 }, { name := 22, score := some 1 }] }])]


attribute [local semireducible] Rat.add Rat.mul Rat.sub Rat.inv

/-! ## General lemmas about the payout arithmetic -/

/-- The conversion `calculate_payout` applies per leg agrees with the spec's
decimal-factor formula (in exact rationals they agree at every odds value;
the code would raise at odds 0, which the claims exclude). -/
theorem decimalOdds_eq_spec (o : Int) : decimalOdds o = specDecimalFactor o := by
  unfold decimalOdds specDecimalFactor
  by_cases h : 0 < o
  · simp [h]
  · simp only [h, if_false]
    rw [Int.cast_natAbs, Int.cast_abs]

/-- The running product inside `calculate_payout` is the product of the
per-leg decimal factors. -/
theorem foldl_mul_decimalOdds (l : List BetPick) (a : ℚ) :
    l.foldl (fun acc p => acc * decimalOdds p.odds) a =
      a * (l.map (fun p => decimalOdds p.odds)).prod := by
  induction l generalizing a with
  | nil => simp
  | cons p t ih => simp [ih, mul_assoc]

/-- `calculate_payout` equals the spec's formula: stake times the product of
the legs' decimal factors, rounded once to two decimals. -/
theorem calculate_payout_eq_spec (picks : List BetPick) (stake : Int) :
    calculate_payout picks stake =
      round2 ((stake : ℚ) * (picks.map (fun p => specDecimalFactor p.odds)).prod) := by
  unfold calculate_payout
  rw [foldl_mul_decimalOdds]
  simp only [one_mul, decimalOdds_eq_spec]

/-! ## Claim theorems -/

/-- C1: for every list of picks with nonzero American odds and every integer
stake, `calculate_payout` returns the stake times the product of the decimal
factors (`o/100 + 1` for positive odds, `100/abs(o) + 1` for negative odds),
rounded to two decimal places exactly once; for one pick this is stake times
that pick's factor. -/
theorem c1_payout_is_rounded_product (picks : List BetPick) (stake : Int)
    (h : ∀ p ∈ picks, p.odds ≠ 0) :
    calculate_payout picks stake =
      round2 ((stake : ℚ) * (picks.map (fun p => specDecimalFactor p.odds)).prod) :=
  calculate_payout_eq_spec picks stake

/-- Witness for C1 at a two-leg parlay priced -110 and +150 with stake 10. -/
theorem c1_payout_is_rounded_product_witness :
    (∀ p ∈ [pickWonNeg110, pickPushPos150], p.odds ≠ 0) ∧
    calculate_payout [pickWonNeg110, pickPushPos150] 10 =
      round2 ((10 : ℚ) *
        ([pickWonNeg110, pickPushPos150].map (fun p => specDecimalFactor p.odds)).prod) :=
  ⟨by decide, c1_payout_is_rounded_product [pickWonNeg110, pickPushPos150] 10 (by decide)⟩

/-- C2 (evaluation at the failing input): on a completed match tied 1-1 the
code resolves a moneyline `home` pick as `push` — not `lost` as the spec
states — while resolving `draw` as `won`; on a non-tied completed match the
winning side's pick resolves `won` as specified. -/
theorem c2_moneyline_tie_resolves_push :
    determine_pick_result pickMlHome matchTied = .push ∧
    determine_pick_result pickMlDraw matchTied = .won ∧
    determine_pick_result pickMlHome matchHomeWin = .won ∧
    determine_pick_result pickMlDraw matchHomeWin = .lost := by decide

/-- C3: for the picks of a bet that are all resolved (each `won`, `lost` or
`push`), the settlement outcome is: any `lost` ⇒ bet `lost` with payout 0;
all `won` ⇒ bet `won` with the stored potential payout; all `push` ⇒ bet
`push` with the stake refunded; a mix of `won` and `push` ⇒ bet `won` with
the payout recomputed as the parlay payout over only the won legs' odds. -/
theorem c3_settlement_case_analysis (betPicks : List BetPick) (stake : Int)
    (potential : ℚ) (hne : betPicks ≠ [])
    (hres : ∀ p ∈ betPicks,
      p.result = some .won ∨ p.result = some .lost ∨ p.result = some .push) :
    ((∃ p ∈ betPicks, p.result = some .lost) →
        settleBetOutcome betPicks stake potential = (.lost, 0)) ∧
    ((∀ p ∈ betPicks, p.result = some .won) →
        settleBetOutcome betPicks stake potential = (.won, potential)) ∧
    ((∀ p ∈ betPicks, p.result = some .push) →
        settleBetOutcome betPicks stake potential = (.push, (stake : ℚ))) ∧
    ((¬ ∃ p ∈ betPicks, p.result = some .lost) →
      (∃ p ∈ betPicks, p.result = some .won) →
      (∃ p ∈ betPicks, p.result = some .push) →
        settleBetOutcome betPicks stake potential =
          (.won, round2 ((stake : ℚ) *
            ((betPicks.filter (fun p => decide (p.result = some .won))).map
              (fun p => specDecimalFactor p.odds)).prod))) := by
  refine ⟨?_, ?_, ?_, ?_⟩
  · rintro ⟨p, hp, hr⟩
    have hl : betPicks.any (fun p => decide (p.result = some BetStatus.lost)) = true := by
      simp only [List.any_eq_true, decide_eq_true_eq]
      exact ⟨p, hp, hr⟩
    simp [settleBetOutcome, hl]
  · intro hw
    have hl : betPicks.any (fun p => decide (p.result = some BetStatus.lost)) = false := by
      simp only [List.any_eq_false, decide_eq_true_eq]
      intro p hp
      rw [hw p hp]
      decide
    have hwall : betPicks.all (fun p => decide (p.result = some BetStatus.won)) = true := by
      simp only [List.all_eq_true, decide_eq_true_eq]
      exact hw
    simp [settleBetOutcome, hl, hwall]
  · intro hpush
    obtain ⟨q, hq⟩ := List.exists_mem_of_ne_nil betPicks hne
    have hl : betPicks.any (fun p => decide (p.result = some BetStatus.lost)) = false := by
      simp only [List.any_eq_false, decide_eq_true_eq]
      intro p hp
      rw [hpush p hp]
      decide
    have hwall : betPicks.all (fun p => decide (p.result = some BetStatus.won)) = false := by
      simp only [List.all_eq_false, decide_eq_true_eq]
      refine ⟨q, hq, ?_⟩
      rw [hpush q hq]
      decide
    have hpall : betPicks.all (fun p => decide (p.result = some BetStatus.push)) = true := by
      simp only [List.all_eq_true, decide_eq_true_eq]
      exact hpush
    simp [settleBetOutcome, hl, hwall, hpall]
  · intro hnl hw hp
    obtain ⟨pw, hpw, hpwr⟩ := hw
    obtain ⟨pp, hpp, hppr⟩ := hp
    have hl : betPicks.any (fun p => decide (p.result = some BetStatus.lost)) = false := by
      simp only [List.any_eq_false, decide_eq_true_eq]
      intro p hpmem hcon
      exact hnl ⟨p, hpmem, hcon⟩
    have hwall : betPicks.all (fun p => decide (p.result = some BetStatus.won)) = false := by
      simp only [List.all_eq_false, decide_eq_true_eq]
      refine ⟨pp, hpp, ?_⟩
      rw [hppr]
      decide
    have hpall : betPicks.all (fun p => decide (p.result = some BetStatus.push)) = false := by
      simp only [List.all_eq_false, decide_eq_true_eq]
      refine ⟨pw, hpw, ?_⟩
      rw [hpwr]
      decide
    have hmem : pw ∈ betPicks.filter (fun p => decide (p.result = some BetStatus.won)) := by
      rw [List.mem_filter]
      exact ⟨hpw, by simp [hpwr]⟩
    have hne2 : (betPicks.filter (fun p => decide (p.result = some BetStatus.won))).isEmpty
        = false := by
      rcases hfe : betPicks.filter (fun p => decide (p.result = some BetStatus.won)) with
        _ | ⟨x, xs⟩
      · rw [hfe] at hmem
        cases hmem
      · rw [hfe]
        rfl
    simp [settleBetOutcome, hl, hwall, hpall, hne2, calculate_payout_eq_spec]

/-- Witness for C3 at a two-leg bet with one `won` and one `push` leg. -/
theorem c3_settlement_case_analysis_witness :
    ((∃ p ∈ [pickWonNeg110, pickPushPos150], p.result = some BetStatus.lost) →
        settleBetOutcome [pickWonNeg110, pickPushPos150] 10 20 = (.lost, 0)) ∧
    ((∀ p ∈ [pickWonNeg110, pickPushPos150], p.result = some BetStatus.won) →
        settleBetOutcome [pickWonNeg110, pickPushPos150] 10 20 = (.won, 20)) ∧
    ((∀ p ∈ [pickWonNeg110, pickPushPos150], p.result = some BetStatus.push) →
        settleBetOutcome [pickWonNeg110, pickPushPos150] 10 20 = (.push, (10 : ℚ))) ∧
    ((¬ ∃ p ∈ [pickWonNeg110, pickPushPos150], p.result = some BetStatus.lost) →
      (∃ p ∈ [pickWonNeg110, pickPushPos150], p.result = some BetStatus.won) →
      (∃ p ∈ [pickWonNeg110, pickPushPos150], p.result = some BetStatus.push) →
        settleBetOutcome [pickWonNeg110, pickPushPos150] 10 20 =
          (.won, round2 ((10 : ℚ) *
            (([pickWonNeg110, pickPushPos150].filter
              (fun p => decide (p.result = some BetStatus.won))).map
              (fun p => specDecimalFactor p.odds)).prod))) :=
  c3_settlement_case_analysis [pickWonNeg110, pickPushPos150] 10 20 (by decide) (by decide)


/-! ## List and state plumbing lemmas -/

/-- A fold whose step preserves a projection preserves it overall. -/
theorem foldl_proj_eq {α γ β : Type _} (f : γ → α → γ) (g : γ → β)
    (hf : ∀ c a, g (f c a) = g c) : ∀ (L : List α) (c : γ), g (L.foldl f c) = g c
  | [], _ => rfl
  | a :: L, c => by rw [List.foldl_cons, foldl_proj_eq f g hf L, hf]

/-- Decomposition of `updateFirst` at a successful `find?`: the list splits
around the found element, which is the one replaced. -/
theorem updateFirst_decomp {α : Type _} (p : α → Bool) (f : α → α) :
    ∀ {l : List α} {a : α}, l.find? p = some a →
      ∃ l1 l2, l = l1 ++ a :: l2 ∧ (∀ x ∈ l1, p x = false) ∧
        updateFirst p f l = l1 ++ f a :: l2 := by
  intro l
  induction l with
  | nil => intro a h; cases h
  | cons x xs ih =>
    intro a h
    by_cases hx : p x = true
    · rw [List.find?_cons_of_pos _ hx] at h
      injection h with h
      subst h
      refine ⟨[], xs, rfl, ?_, ?_⟩
      · intro y hy; cases hy
      · simp [updateFirst, hx]
    · have hx' : p x = false := by
        cases hpx : p x
        · rfl
        · exact absurd hpx hx
      rw [List.find?_cons_of_neg _ (by simp [hx'])] at h
      obtain ⟨l1, l2, heq, hall, hupd⟩ := ih h
      refine ⟨x :: l1, l2, ?_, ?_, ?_⟩
      · rw [List.cons_append, heq]
      · intro y hy
        rcases List.mem_cons.mp hy with rfl | hy2
        · exact hx'
        · exact hall _ hy2
      · simp [updateFirst, hx', hupd]

/-- `updateResultBetStep` never touches the match table. -/
theorem updateResultBetStep_matchRows (env : Env) (acc : DB) (bid : Nat) :
    (updateResultBetStep env acc bid).matchRows = acc.matchRows := by
  unfold updateResultBetStep
  cases hfind : acc.bets.find? (fun b => decide (b.id = bid)) with
  | none => rfl
  | some bet =>
    dsimp only
    rw [apply_ite DB.matchRows]
    dsimp only
    exact ite_self _

/-- C9: `update_match_result` carries no admin-privilege check: it can only
fail with the match-not-found error, and whenever the match exists it
performs its mutation (scores written, match completed) for any caller —
unlike `admin_force_settle_bet`, whose `is_admin` dependency rejects
non-admin requesters. -/
theorem c9_update_result_requires_no_admin (env : Env) (mid : Nat)
    (hs as_ : Int) (db : DB) :
    (∀ e, update_match_result env mid hs as_ db = .error e → e = .matchNotFound) ∧
    (db.matchRows.any (fun m => decide (m.id = mid)) = true →
      ∃ db', update_match_result env mid hs as_ db = .ok db' ∧
        ∃ m ∈ db'.matchRows, m.id = mid ∧ m.status = .completed ∧
          m.home_score = some hs ∧ m.away_score = some as_) ∧
    (∀ requester bid outcome, is_admin db requester = .error .adminRequired →
      admin_force_settle_bet env requester bid outcome db = .error .adminRequired) := by
  refine ⟨?_, ?_, ?_⟩
  · intro e he
    unfold update_match_result at he
    cases hfind : db.matchRows.find? (fun m => decide (m.id = mid)) with
    | none =>
      rw [hfind] at he
      injection he with h
      exact h.symm
    | some m =>
      rw [hfind] at he
      exact Except.noConfusion he
  · intro hany
    rw [List.any_eq_true] at hany
    obtain ⟨m0, hm0, hp0⟩ := hany
    cases hfind : db.matchRows.find? (fun m => decide (m.id = mid)) with
    | none =>
      rw [List.find?_eq_none] at hfind
      exact absurd hp0 (hfind m0 hm0)
    | some m =>
      have hpm := List.find?_some hfind
      have hmid : m.id = mid := by simpa using hpm
      cases hres : update_match_result env mid hs as_ db with
      | error e =>
        unfold update_match_result at hres
        rw [hfind] at hres
        exact Except.noConfusion hres
      | ok db' =>
        refine ⟨db', rfl, ?_⟩
        have hchar : db'.matchRows = updateFirst (fun x => decide (x.id = mid))
            (fun _ => { m with
              home_score := some hs
              away_score := some as_
              status := MatchStatus.completed
              completed_at := some env.now }) db.matchRows := by
          unfold update_match_result at hres
          rw [hfind] at hres
          dsimp only at hres
          injection hres with h
          rw [← h]
          rw [foldl_proj_eq (updateResultBetStep env) DB.matchRows
            (updateResultBetStep_matchRows env)]
        obtain ⟨l1, l2, _, _, hupd⟩ := updateFirst_decomp
          (fun x => decide (x.id = mid))
          (fun _ => { m with
            home_score := some hs
            away_score := some as_
            status := MatchStatus.completed
            completed_at := some env.now }) hfind
        rw [hchar, hupd]
        refine ⟨{ m with
          home_score := some hs
          away_score := some as_
          status := MatchStatus.completed
          completed_at := some env.now }, ?_, hmid, rfl, rfl, rfl⟩
        exact List.mem_append_right l1 (List.mem_cons_self _ _)
  · intro requester bid outcome hadm
    unfold admin_force_settle_bet
    rw [hadm]

/-- Witness for C9: on the one-match database, any caller's update of match 1
succeeds and completes the match with the given scores. -/
theorem c9_update_result_requires_no_admin_witness :
    ∃ db', update_match_result envTest 1 2 3 dbOneMatch = .ok db' ∧
      ∃ m ∈ db'.matchRows, m.id = 1 ∧ m.status = .completed ∧
        m.home_score = some 2 ∧ m.away_score = some 3 :=
  (c9_update_result_requires_no_admin envTest 1 2 3 dbOneMatch).2.1 (by decide)

/-- C10: whenever the Authorization header is absent or its token fails
verification, the acting principal resolves to user id 1 — the request is not
rejected — so bet placement, cancellation and bet listing behave exactly as
invocations by user 1. -/
theorem c10_failed_auth_acts_as_user_one (verify : Nat → Option Int)
    (auth : Option Nat)
    (h : auth = none ∨ ∃ t, auth = some t ∧ verify t = none) :
    get_current_user_id verify auth = 1 ∧
    (∀ env req db,
      place_bet env (get_current_user_id verify auth) req db = place_bet env 1 req db) ∧
    (∀ env bid db,
      cancel_bet env bid (get_current_user_id verify auth) db = cancel_bet env bid 1 db) ∧
    (∀ db, get_my_bets (get_current_user_id verify auth) db = get_my_bets 1 db) := by
  have h1 : get_current_user_id verify auth = 1 := by
    rcases h with h | ⟨t, ht, hv⟩
    · rw [h]; rfl
    · subst ht
      unfold get_current_user_id
      dsimp only
      rw [hv]
  exact ⟨h1, fun env req db => by rw [h1], fun env bid db => by rw [h1],
    fun db => by rw [h1]⟩

/-- Witness for C10 at a concrete token that fails verification. -/
theorem c10_failed_auth_acts_as_user_one_witness :
    ((some 5 : Option Nat) = none ∨
      ∃ t, (some 5 : Option Nat) = some t ∧ (fun _ : Nat => (none : Option Int)) t = none) ∧
    get_current_user_id (fun _ => none) (some 5) = 1 :=
  ⟨Or.inr ⟨5, rfl, rfl⟩,
    (c10_failed_auth_acts_as_user_one (fun _ => none) (some 5) (Or.inr ⟨5, rfl, rfl⟩)).1⟩


/-- Filtering a table with distinct primary keys by membership of the keys in
a list with a repetition yields strictly fewer rows than the list has
entries: the core of why `place_bet`'s match-count check fires on any
duplicated match reference. -/
theorem length_filter_mem_lt_of_not_nodup (ms : List SportsMatch) (ids : List Nat)
    (hms : (ms.map (fun m => m.id)).Nodup) (hids : ¬ ids.Nodup) :
    (ms.filter (fun m => decide (m.id ∈ ids))).length < ids.length := by
  have h1 : ((ms.filter (fun m => decide (m.id ∈ ids))).map (fun m => m.id)).Nodup :=
    List.Nodup.sublist (List.Sublist.map _ (List.filter_sublist _)) hms
  have h2 : ∀ x ∈ (ms.filter (fun m => decide (m.id ∈ ids))).map (fun m => m.id),
      x ∈ ids := by
    intro x hx
    rw [List.mem_map] at hx
    obtain ⟨m, hm, rfl⟩ := hx
    rw [List.mem_filter] at hm
    exact of_decide_eq_true hm.2
  have h3 : ((ms.filter (fun m => decide (m.id ∈ ids))).map (fun m => m.id)).length
      ≤ ids.dedup.length := by
    have hsub : ((ms.filter (fun m => decide (m.id ∈ ids))).map
        (fun m => m.id)).toFinset ⊆ ids.toFinset := by
      intro x hx
      rw [List.mem_toFinset] at hx ⊢
      exact h2 x hx
    calc ((ms.filter (fun m => decide (m.id ∈ ids))).map (fun m => m.id)).length
        = ((ms.filter (fun m => decide (m.id ∈ ids))).map (fun m => m.id)).toFinset.card :=
          (List.toFinset_card_of_nodup h1).symm
      _ ≤ ids.toFinset.card := Finset.card_le_card hsub
      _ = ids.dedup.length := List.card_toFinset ids
  have h4 : ids.dedup.length < ids.length := by
    rcases Nat.lt_or_ge ids.dedup.length ids.length with h | h
    · exact h
    · exfalso
      have hle : ids.dedup.length ≤ ids.length := (List.dedup_sublist ids).length_le
      have heq : ids.dedup = ids :=
        (List.dedup_sublist ids).eq_of_length (le_antisymm hle h)
      exact hids (heq ▸ List.nodup_dedup ids)
  calc (ms.filter (fun m => decide (m.id ∈ ids))).length
      = ((ms.filter (fun m => decide (m.id ∈ ids))).map (fun m => m.id)).length :=
        (List.length_map _ _).symm
    _ ≤ ids.dedup.length := h3
    _ < ids.length := h4

/-- C6 (counterexample): on a database whose only match (id 1) exists and is
upcoming, a request with two identical picks on match 1 is rejected with
exactly the same error as a request referencing a nonexistent match — the
generic match-count failure, not a distinct duplicate-pick validation
failure (the `unique_pick_per_bet` constraint is never even reached). -/
theorem c6_duplicate_conflated_with_missing_match :
    place_bet envTest 7 reqDup dbOneMatch = .error .matchesNotFound ∧
    place_bet envTest 7 reqMissing dbOneMatch = .error .matchesNotFound := by
  constructor
  · rfl
  · rfl

/-- C6 (amended): a request containing two picks with the same
(match, bet_type, selection) tuple — or any duplicated match reference —
is rejected synchronously and persists nothing, but through the
`matchesNotFound` match-count error rather than a distinct duplicate-pick
validation failure. -/
theorem c6_duplicate_pick_rejected_without_persisting (env : Env) (uid : Int)
    (req : PlaceBetRequest) (db : DB)
    (hids : (db.matchRows.map (fun m => m.id)).Nodup)
    (hlen : 1 ≤ req.picks.length ∧ req.picks.length ≤ 10)
    (hstake : 1 ≤ req.stake ∧ req.stake ≤ 1000)
    (hdup : ¬ (req.picks.map pickTriple).Nodup) :
    place_bet env uid req db = .error .matchesNotFound := by
  have hmi : ¬ (req.picks.map (fun p => p.match_id)).Nodup := by
    intro hnd
    apply hdup
    refine List.Nodup.of_map Prod.fst ?_
    have hmm : (req.picks.map pickTriple).map Prod.fst
        = req.picks.map (fun p => p.match_id) := by
      rw [List.map_map]
      rfl
    rw [hmm]
    exact hnd
  have hlt := length_filter_mem_lt_of_not_nodup db.matchRows
    (req.picks.map (fun p => p.match_id)) hids hmi
  unfold place_bet
  rw [if_neg (not_not_intro hlen), if_neg (not_not_intro hstake)]
  dsimp only
  rw [if_pos (Nat.ne_of_lt hlt)]

/-- Witness for C6's amended claim at the concrete duplicate request. -/
theorem c6_duplicate_pick_rejected_without_persisting_witness :
    place_bet envTest 7 reqDup dbOneMatch = .error .matchesNotFound :=
  c6_duplicate_pick_rejected_without_persisting envTest 7 reqDup dbOneMatch
    (by decide) (by decide) (by decide) (by decide)


/-- Membership in `updateFirst`: every element is an original or the image of
an original under the update. -/
theorem mem_updateFirst {α : Type _} (p : α → Bool) (f : α → α) :
    ∀ {l : List α} {b : α}, b ∈ updateFirst p f l → b ∈ l ∨ ∃ a ∈ l, b = f a := by
  intro l
  induction l with
  | nil => intro b h; cases h
  | cons x xs ih =>
    intro b h
    by_cases hx : p x = true
    · rw [updateFirst, if_pos hx] at h
      rcases List.mem_cons.mp h with rfl | h2
      · exact Or.inr ⟨x, List.mem_cons_self _ _, rfl⟩
      · exact Or.inl (List.mem_cons_of_mem _ h2)
    · have hx' : p x = false := by
        cases hpx : p x
        · rfl
        · exact absurd hpx hx
      rw [updateFirst, if_neg (by simp [hx'])] at h
      rcases List.mem_cons.mp h with rfl | h2
      · exact Or.inl (List.mem_cons_self _ _)
      · rcases ih h2 with h3 | ⟨a, ha, rfl⟩
        · exact Or.inl (List.mem_cons_of_mem _ h3)
        · exact Or.inr ⟨a, List.mem_cons_of_mem _ ha, rfl⟩

/-- A fold whose step preserves a predicate preserves it overall. -/
theorem foldl_pred_preserve {α γ : Type _} (f : γ → α → γ) (P : γ → Prop)
    (hf : ∀ c a, P c → P (f c a)) : ∀ (L : List α) (c : γ), P c → P (L.foldl f c)
  | [], _, hc => hc
  | a :: L, c, hc => by
    rw [List.foldl_cons]
    exact foldl_pred_preserve f P hf L (f c a) (hf c a hc)

/-- The row `update_leaderboard` writes satisfies net = won − wagered. -/
theorem applyLeaderboard_net (now : Int) (bet : Bet) (lb : Leaderboard) :
    (applyLeaderboard now bet lb).net_profit =
      (applyLeaderboard now bet lb).total_won - (applyLeaderboard now bet lb).total_wagered := by
  unfold applyLeaderboard
  dsimp only
  cases bet.status <;> dsimp only <;> split <;> rfl

/-- `update_leaderboard` keeps net = won − wagered across the whole table. -/
theorem update_leaderboard_net (now : Int) (uid : Int) (cat : Nat) (bet : Bet)
    (lbs : List Leaderboard)
    (h : ∀ lb ∈ lbs, lb.net_profit = lb.total_won - lb.total_wagered) :
    ∀ lb ∈ update_leaderboard now uid cat bet lbs,
      lb.net_profit = lb.total_won - lb.total_wagered := by
  intro lb hlb
  unfold update_leaderboard at hlb
  split at hlb
  · rcases mem_updateFirst _ _ hlb with h1 | ⟨a, _, rfl⟩
    · exact h _ h1
    · exact applyLeaderboard_net now bet a
  · rw [List.mem_append] at hlb
    rcases hlb with h1 | h1
    · exact h _ h1
    · rw [List.mem_singleton] at h1
      subst h1
      exact applyLeaderboard_net now bet _

/-- `settleBetStep` keeps net = won − wagered across the whole table. -/
theorem settleBetStep_net (env : Env) (sk : Nat) (db : DB) (bid : Nat)
    (h : ∀ lb ∈ db.lbs, lb.net_profit = lb.total_won - lb.total_wagered) :
    ∀ lb ∈ (settleBetStep env sk db bid).lbs,
      lb.net_profit = lb.total_won - lb.total_wagered := by
  unfold settleBetStep
  cases hfind : db.bets.find? (fun b => decide (b.id = bid)) with
  | none => exact h
  | some bet =>
    dsimp only
    split
    · exact h
    · split
      · exact h
      · exact update_leaderboard_net _ _ _ _ _ h

/-- `runEvent` keeps net = won − wagered across the whole table. -/
theorem runEvent_net (env : Env) (sk : Nat) (db : DB) (ev : ScoreEvent)
    (h : ∀ lb ∈ db.lbs, lb.net_profit = lb.total_won - lb.total_wagered) :
    ∀ lb ∈ (runEvent env sk db ev).lbs,
      lb.net_profit = lb.total_won - lb.total_wagered := by
  unfold runEvent
  split
  · exact h
  · cases hfind : db.matchRows.find? (fun x => decide (x.external_id = ev.id)) with
    | none => exact h
    | some m =>
      dsimp only
      split
      · exact h
      · split
        · unfold applyCompletion
          dsimp only
          exact foldl_pred_preserve (settleBetStep env sk)
            (fun d => ∀ lb ∈ d.lbs, lb.net_profit = lb.total_won - lb.total_wagered)
            (fun c a hc => settleBetStep_net env sk c a hc) _ _ h
        · exact h
        · exact h

/-- C8 (amended part): after every settlement pass and every successful
cancellation, every leaderboard row satisfies net_profit = total_won −
total_wagered, provided every row satisfied it before. -/
theorem c8_net_profit_invariant (env : Env)
    (scoreData : List (Nat × List ScoreEvent)) (db : DB)
    (h : ∀ lb ∈ db.lbs, lb.net_profit = lb.total_won - lb.total_wagered) :
    (∀ lb ∈ (settle_completed_matches env scoreData db).lbs,
      lb.net_profit = lb.total_won - lb.total_wagered) ∧
    (∀ bet_id user_id db', cancel_bet env bet_id user_id db = .ok db' →
      ∀ lb ∈ db'.lbs, lb.net_profit = lb.total_won - lb.total_wagered) := by
  constructor
  · have hstep : ∀ (c : DB) (pr : Nat × List ScoreEvent),
        (∀ lb ∈ c.lbs, lb.net_profit = lb.total_won - lb.total_wagered) →
        ∀ lb ∈ (pr.2.foldl (runEvent env pr.1) c).lbs,
          lb.net_profit = lb.total_won - lb.total_wagered := by
      intro c pr hc
      exact foldl_pred_preserve (runEvent env pr.1)
        (fun d => ∀ lb ∈ d.lbs, lb.net_profit = lb.total_won - lb.total_wagered)
        (fun c2 ev hc2 => runEvent_net env pr.1 c2 ev hc2) pr.2 c hc
    unfold settle_completed_matches
    split
    · exact h
    · exact foldl_pred_preserve
        (fun acc pr => pr.2.foldl (runEvent env pr.1) acc)
        (fun d => ∀ lb ∈ d.lbs, lb.net_profit = lb.total_won - lb.total_wagered)
        hstep scoreData db h
  · intro bet_id user_id db' hok
    unfold cancel_bet at hok
    cases hfind : db.bets.find? (fun b => decide (b.id = bet_id)) with
    | none =>
      rw [hfind] at hok
      exact Except.noConfusion hok
    | some bet =>
      rw [hfind] at hok
      dsimp only at hok
      split at hok
      · exact Except.noConfusion hok
      · split at hok
        · exact Except.noConfusion hok
        · split at hok
          · exact Except.noConfusion hok
          · injection hok with hok
            subst hok
            split
            · intro lb hlb
              rcases mem_updateFirst _ _ hlb with h1 | ⟨a, _, rfl⟩
              · exact h _ h1
              · dsimp only
            · exact h

/-- Witness for C8's invariant at the concrete settlement scenario. -/
theorem c8_net_profit_invariant_witness :
    ((settle_completed_matches envTest sdPayout dbPayout).lbs.map
      (fun lb => decide (lb.net_profit = lb.total_won - lb.total_wagered))).all
      (fun b => b) = true := by
  rw [List.all_eq_true]
  intro b hb
  rw [List.mem_map] at hb
  obtain ⟨lb, hlb, rfl⟩ := hb
  simp only [decide_eq_true_eq]
  exact (c8_net_profit_invariant envTest sdPayout dbPayout (by decide)).1 lb hlb

/-- C8 (counterexample): settling a won bet whose payout is 16.67 records
total_won 16 in the leaderboard — `update_leaderboard` adds
`int(bet.actual_payout)` — so total_won is not the sum of the settled bets'
actual payouts (16.67). -/
theorem c8_totals_not_reconstructible :
    ((settle_completed_matches envTest sdPayout dbPayout).lbs.map
      (fun lb => lb.total_won)) = [16] ∧
    ((((settle_completed_matches envTest sdPayout dbPayout).bets.filter
      (fun b => decide (b.status ≠ .pending ∧ b.status ≠ .cancelled))).map
      (fun b => b.actual_payout)).sum = 1667/100) ∧
    ((16 : ℚ) ≠ 1667/100) := by
  refine ⟨by decide, by decide, by decide⟩


/-! ## Pick-result preservation by the settlement pass (C5) -/

/-- Mapping a function that relates every element to its image yields a
pointwise-related list. -/
theorem forall₂_map_self {α : Type _} (R : α → α → Prop) (f : α → α)
    (l : List α) (hf : ∀ x ∈ l, R x (f x)) : List.Forall₂ R l (l.map f) := by
  induction l with
  | nil => exact List.Forall₂.nil
  | cons x xs ih =>
    exact List.Forall₂.cons (hf x (List.mem_cons_self _ _))
      (ih (fun y hy => hf y (List.mem_cons_of_mem _ hy)))

/-- Pointwise relations compose along a transitivity law. -/
theorem forall₂_trans {α : Type _} (R : α → α → Prop)
    (ht : ∀ a b c, R a b → R b c → R a c) :
    ∀ {l1 l2 l3 : List α}, List.Forall₂ R l1 l2 → List.Forall₂ R l2 l3 →
      List.Forall₂ R l1 l3 := by
  intro l1 l2 l3 h12
  induction h12 generalizing l3 with
  | nil =>
    intro h23
    cases h23
    exact List.Forall₂.nil
  | cons hR _ ih =>
    intro h23
    cases h23 with
    | cons hR' htail' => exact List.Forall₂.cons (ht _ _ _ hR hR') (ih htail')

/-- A fold each of whose steps is related to its input state, under a
transitive reflexive relation, is related to the initial state. -/
theorem foldl_rel_preserve {γ α : Type _} (f : γ → α → γ) (R : γ → γ → Prop)
    (ht : ∀ a b c, R a b → R b c → R a c) (hr : ∀ c, R c c)
    (hstep : ∀ c a, R c (f c a)) : ∀ (L : List α) (c : γ), R c (L.foldl f c)
  | [], c => hr c
  | a :: L, c => by
    rw [List.foldl_cons]
    exact ht _ _ _ (hstep c a) (foldl_rel_preserve f R ht hr hstep L (f c a))

/-- `settleBetStep` never touches the pick table. -/
theorem settleBetStep_picks (env : Env) (sk : Nat) (db : DB) (bid : Nat) :
    (settleBetStep env sk db bid).picks = db.picks := by
  unfold settleBetStep
  cases hfind : db.bets.find? (fun b => decide (b.id = bid)) with
  | none => rfl
  | some bet =>
    dsimp only
    split
    · rfl
    · split
      · rfl
      · rfl

/-- `runEvent` only ever writes a pick's result when it was null: pointwise,
a non-null result survives unchanged. -/
theorem runEvent_picks_pres (env : Env) (sk : Nat) (db : DB) (ev : ScoreEvent) :
    List.Forall₂ (fun p q : BetPick => ∀ r, p.result = some r → q.result = some r)
      db.picks (runEvent env sk db ev).picks := by
  have hrefl : ∀ l : List BetPick,
      List.Forall₂ (fun p q : BetPick => ∀ r, p.result = some r → q.result = some r) l l :=
    fun l => List.forall₂_same.mpr (fun x _ r hr => hr)
  unfold runEvent
  split
  · exact hrefl _
  · cases hfind : db.matchRows.find? (fun x => decide (x.external_id = ev.id)) with
    | none => exact hrefl _
    | some m =>
      dsimp only
      split
      · exact hrefl _
      · rcases hps : parseScores m ev.scores with ⟨a, b⟩
        cases a with
        | none => exact hrefl _
        | some hs =>
          cases b with
          | none => exact hrefl _
          | some as_ =>
            unfold applyCompletion
            dsimp only
            rw [foldl_proj_eq (settleBetStep env sk) DB.picks (settleBetStep_picks env sk)]
            dsimp only
            apply forall₂_map_self
            intro x _ r hr
            by_cases hc : x.match_id = m.id ∧ x.result = none
            · rw [hc.2] at hr
              cases hr
            · rw [if_neg hc]
              exact hr

/-- C5 (amended): the scheduled settlement pass preserves resolved picks —
pointwise along the pick table, any pick whose `result` was already non-null
keeps exactly that result after `settle_completed_matches`.  (The operator
result-update and force-settle operations are not covered by this guarantee;
see the counterexample.) -/
theorem c5_settlement_never_changes_resolved_picks (env : Env)
    (scoreData : List (Nat × List ScoreEvent)) (db : DB) :
    List.Forall₂ (fun p q : BetPick => ∀ r, p.result = some r → q.result = some r)
      db.picks (settle_completed_matches env scoreData db).picks := by
  have hrefl : ∀ l : List BetPick,
      List.Forall₂ (fun p q : BetPick => ∀ r, p.result = some r → q.result = some r) l l :=
    fun l => List.forall₂_same.mpr (fun x _ r hr => hr)
  have ht : ∀ a b c : BetPick, (∀ r, a.result = some r → b.result = some r) →
      (∀ r, b.result = some r → c.result = some r) →
      ∀ r, a.result = some r → c.result = some r :=
    fun a b c hab hbc r hr => hbc r (hab r hr)
  have hstep : ∀ (c : DB) (pr : Nat × List ScoreEvent),
      List.Forall₂ (fun p q : BetPick => ∀ r, p.result = some r → q.result = some r)
        c.picks (pr.2.foldl (runEvent env pr.1) c).picks := by
    intro c pr
    exact foldl_rel_preserve (runEvent env pr.1)
      (fun d d' => List.Forall₂
        (fun p q : BetPick => ∀ r, p.result = some r → q.result = some r) d.picks d'.picks)
      (fun a b c => forall₂_trans _ ht)
      (fun c2 => hrefl _)
      (fun c2 ev => runEvent_picks_pres env pr.1 c2 ev) pr.2 c
  unfold settle_completed_matches
  split
  · exact hrefl _
  · exact foldl_rel_preserve
      (fun acc pr => pr.2.foldl (runEvent env pr.1) acc)
      (fun d d' => List.Forall₂
        (fun p q : BetPick => ∀ r, p.result = some r → q.result = some r) d.picks d'.picks)
      (fun a b c => forall₂_trans _ ht)
      (fun c => hrefl _)
      hstep scoreData db

/-- C5 (counterexample): on a reachable state where the first leg of a
pending parlay is already resolved `won`, the operator result-update
operation on that leg's match with reversed scores overwrites the resolved
result to `lost` — a non-null pick result changed by an operation of the
system. -/
theorem c5_update_result_overwrites_resolved_pick :
    (dbHalfSettled.picks.map (fun p => p.result)
      = [some BetStatus.won, none]) ∧
    ((update_match_result envTest 1 0 3 dbHalfSettled).map
      (fun d => d.picks.map (fun p => p.result))
      = .ok [some BetStatus.lost, none]) := by
  exact ⟨rfl, rfl⟩


/-! ## Idempotence of the settlement pass (C4) -/

/-- `MatchSim` is reflexive. -/
theorem matchSim_refl (m : SportsMatch) : MatchSim m m :=
  ⟨rfl, rfl, rfl, fun h => h⟩

/-- `MatchSim` is transitive. -/
theorem matchSim_trans {a b c : SportsMatch} (h1 : MatchSim a b) (h2 : MatchSim b c) :
    MatchSim a c :=
  ⟨h1.1.trans h2.1, h1.2.1.trans h2.2.1, h1.2.2.1.trans h2.2.2.1,
    fun h => h2.2.2.2 (h1.2.2.2 h)⟩

/-- Score parsing depends only on the match's team names. -/
theorem parseScores_congr {m m' : SportsMatch} (h1 : m.home_team = m'.home_team)
    (h2 : m.away_team = m'.away_team) (entries : List ScoreEntry) :
    parseScores m entries = parseScores m' entries := by
  unfold parseScores
  simp only [h1, h2]

/-- `find?` by external id transfers along pointwise `MatchSim`. -/
theorem find?_matchSim {l l' : List SportsMatch}
    (h : List.Forall₂ MatchSim l l') (eid : Nat) :
    (l.find? (fun x => decide (x.external_id = eid)) = none →
      l'.find? (fun x => decide (x.external_id = eid)) = none) ∧
    (∀ m, l.find? (fun x => decide (x.external_id = eid)) = some m →
      ∃ m', l'.find? (fun x => decide (x.external_id = eid)) = some m' ∧ MatchSim m m') := by
  induction h with
  | nil => exact ⟨fun _ => rfl, fun m hm => by cases hm⟩
  | @cons a b l1 l2 hR htail ih =>
    by_cases hpa : a.external_id = eid
    · have hpb : b.external_id = eid := hR.1.symm.trans hpa
      constructor
      · intro hn
        rw [List.find?_cons_of_pos _ (by simp [hpa])] at hn
        cases hn
      · intro m hm
        rw [List.find?_cons_of_pos _ (by simp [hpa])] at hm
        injection hm with hm
        subst hm
        exact ⟨b, by rw [List.find?_cons_of_pos _ (by simp [hpb])], hR⟩
    · have hpb : ¬ b.external_id = eid := fun hb => hpa (hR.1.trans hb)
      constructor
      · intro hn
        rw [List.find?_cons_of_neg _ (by simp [hpa])] at hn
        rw [List.find?_cons_of_neg _ (by simp [hpb])]
        exact ih.1 hn
      · intro m hm
        rw [List.find?_cons_of_neg _ (by simp [hpa])] at hm
        obtain ⟨m', hm', hsim⟩ := ih.2 m hm
        refine ⟨m', ?_, hsim⟩
        rw [List.find?_cons_of_neg _ (by simp [hpb])]
        exact hm'

/-- A skip condition survives any pointwise-`MatchSim` evolution of the
match table. -/
theorem eventSkipped_mono {ev : ScoreEvent} {l l' : List SportsMatch}
    (hsim : List.Forall₂ MatchSim l l') (h : eventSkipped ev l) :
    eventSkipped ev l' := by
  rcases h with hdata | hnone | ⟨m, hfind, hrest⟩
  · exact Or.inl hdata
  · exact Or.inr (Or.inl ((find?_matchSim hsim ev.id).1 hnone))
  · obtain ⟨m', hfind', hsim'⟩ := (find?_matchSim hsim ev.id).2 m hfind
    refine Or.inr (Or.inr ⟨m', hfind', ?_⟩)
    rcases hrest with hcomp | hparse
    · exact Or.inl (hsim'.2.2.2 hcomp)
    · by_cases hc : m'.status = .completed
      · exact Or.inl hc
      · refine Or.inr ?_
        rw [← parseScores_congr hsim'.2.1 hsim'.2.2.1]
        exact hparse

/-- `settleBetStep` never touches the match table. -/
theorem settleBetStep_matchRows (env : Env) (sk : Nat) (db : DB) (bid : Nat) :
    (settleBetStep env sk db bid).matchRows = db.matchRows := by
  unfold settleBetStep
  cases hfind : db.bets.find? (fun b => decide (b.id = bid)) with
  | none => rfl
  | some bet =>
    dsimp only
    split
    · rfl
    · split
      · rfl
      · rfl

/-- The match table after `applyCompletion` is the original with the first
match of the event's external id replaced by its completed version. -/
theorem applyCompletion_matchRows (env : Env) (sk : Nat) (db : DB)
    (ev : ScoreEvent) (m : SportsMatch) (hs as_ : Int) :
    (applyCompletion env sk db ev m hs as_).matchRows =
      updateFirst (fun x => decide (x.external_id = ev.id))
        (fun _ => { m with
          home_score := some hs
          away_score := some as_
          status := MatchStatus.completed
          completed_at := some env.now }) db.matchRows := by
  unfold applyCompletion
  dsimp only
  rw [foldl_proj_eq (settleBetStep env sk) DB.matchRows (settleBetStep_matchRows env sk)]

/-- One event step evolves the match table pointwise along `MatchSim`. -/
theorem runEvent_matchSim (env : Env) (sk : Nat) (db : DB) (ev : ScoreEvent) :
    List.Forall₂ MatchSim db.matchRows (runEvent env sk db ev).matchRows := by
  have hrefl : ∀ l : List SportsMatch, List.Forall₂ MatchSim l l :=
    fun l => List.forall₂_same.mpr (fun x _ => matchSim_refl x)
  unfold runEvent
  split
  · exact hrefl _
  · cases hfind : db.matchRows.find? (fun x => decide (x.external_id = ev.id)) with
    | none => exact hrefl _
    | some m =>
      dsimp only
      split
      · exact hrefl _
      · rcases hps : parseScores m ev.scores with ⟨a, b⟩
        cases a with
        | none => exact hrefl _
        | some hs =>
          cases b with
          | none => exact hrefl _
          | some as_ =>
            rw [applyCompletion_matchRows]
            obtain ⟨l1, l2, heq, hl1, hupd⟩ := updateFirst_decomp
              (fun x => decide (x.external_id = ev.id))
              (fun _ => { m with
                home_score := some hs
                away_score := some as_
                status := MatchStatus.completed
                completed_at := some env.now }) hfind
            rw [hupd, heq]
            exact List.rel_append (hrefl l1)
              (List.Forall₂.cons ⟨rfl, rfl, rfl, fun _ => rfl⟩ (hrefl l2))

/-- `find?` over a split list whose prefix fails the predicate returns the
splitting element when it satisfies it. -/
theorem find?_append_cons {α : Type _} (p : α → Bool) (y : α) :
    ∀ (l1 l2 : List α), (∀ x ∈ l1, p x = false) → p y = true →
      (l1 ++ y :: l2).find? p = some y
  | [], l2, _, hy => by rw [List.nil_append, List.find?_cons_of_pos _ hy]
  | x :: l1, l2, hl, hy => by
    rw [List.cons_append,
      List.find?_cons_of_neg _ (by simp [hl x (List.mem_cons_self _ _)])]
    exact find?_append_cons p y l1 l2 (fun z hz => hl z (List.mem_cons_of_mem _ hz)) hy

/-- After one event step the event's skip condition holds: either the step
already skipped it for a data- or state-reason that persists, or it has just
completed the event's match. -/
theorem runEvent_skipped_after (env : Env) (sk : Nat) (db : DB) (ev : ScoreEvent) :
    eventSkipped ev (runEvent env sk db ev).matchRows := by
  unfold runEvent
  by_cases hdata : ev.completed = false ∨ ev.scores.isEmpty = true
  · rw [if_pos hdata]
    exact Or.inl hdata
  · rw [if_neg hdata]
    cases hfind : db.matchRows.find? (fun x => decide (x.external_id = ev.id)) with
    | none => exact Or.inr (Or.inl hfind)
    | some m =>
      dsimp only
      by_cases hcomp : m.status = .completed
      · rw [if_pos hcomp]
        exact Or.inr (Or.inr ⟨m, hfind, Or.inl hcomp⟩)
      · rw [if_neg hcomp]
        rcases hps : parseScores m ev.scores with ⟨a, b⟩
        cases a with
        | none =>
          refine Or.inr (Or.inr ⟨m, hfind, Or.inr ?_⟩)
          rw [hps]
          rfl
        | some hs =>
          cases b with
          | none =>
            refine Or.inr (Or.inr ⟨m, hfind, Or.inr ?_⟩)
            rw [hps]
            rfl
          | some as_ =>
            rw [applyCompletion_matchRows]
            obtain ⟨l1, l2, heq, hl1, hupd⟩ := updateFirst_decomp
              (fun x => decide (x.external_id = ev.id))
              (fun _ => { m with
                home_score := some hs
                away_score := some as_
                status := MatchStatus.completed
                completed_at := some env.now }) hfind
            rw [hupd]
            refine Or.inr (Or.inr ⟨{ m with
              home_score := some hs
              away_score := some as_
              status := MatchStatus.completed
              completed_at := some env.now }, ?_, Or.inl rfl⟩)
            have hm : m.external_id = ev.id := by simpa using List.find?_some hfind
            refine find?_append_cons (fun x => decide (x.external_id = ev.id)) _ l1 l2 hl1 ?_
            simp [hm]

/-- The inner per-sport fold evolves the match table along `MatchSim`. -/
theorem foldInner_matchSim (env : Env) (k : Nat) (evs : List ScoreEvent) (db : DB) :
    List.Forall₂ MatchSim db.matchRows ((evs.foldl (runEvent env k) db).matchRows) := by
  have hT : ∀ a b c : DB,
      List.Forall₂ MatchSim a.matchRows b.matchRows →
      List.Forall₂ MatchSim b.matchRows c.matchRows →
      List.Forall₂ MatchSim a.matchRows c.matchRows :=
    fun a b c h1 h2 =>
      forall₂_trans MatchSim (fun _ _ _ hab hbc => matchSim_trans hab hbc) h1 h2
  have hR : ∀ c : DB, List.Forall₂ MatchSim c.matchRows c.matchRows :=
    fun c => List.forall₂_same.mpr (fun x _ => matchSim_refl x)
  exact foldl_rel_preserve (runEvent env k)
    (fun d d' => List.Forall₂ MatchSim d.matchRows d'.matchRows)
    hT hR (fun c ev => runEvent_matchSim env k c ev) evs db

/-- The whole settlement fold evolves the match table along `MatchSim`. -/
theorem foldOuter_matchSim (env : Env) (sd : List (Nat × List ScoreEvent)) (db : DB) :
    List.Forall₂ MatchSim db.matchRows
      ((sd.foldl (fun acc q => q.2.foldl (runEvent env q.1) acc) db).matchRows) := by
  have hT : ∀ a b c : DB,
      List.Forall₂ MatchSim a.matchRows b.matchRows →
      List.Forall₂ MatchSim b.matchRows c.matchRows →
      List.Forall₂ MatchSim a.matchRows c.matchRows :=
    fun a b c h1 h2 =>
      forall₂_trans MatchSim (fun _ _ _ hab hbc => matchSim_trans hab hbc) h1 h2
  have hR : ∀ c : DB, List.Forall₂ MatchSim c.matchRows c.matchRows :=
    fun c => List.forall₂_same.mpr (fun x _ => matchSim_refl x)
  exact foldl_rel_preserve (fun acc q => q.2.foldl (runEvent env q.1) acc)
    (fun d d' => List.Forall₂ MatchSim d.matchRows d'.matchRows)
    hT hR (fun c q => foldInner_matchSim env q.1 q.2 c) sd db

/-- After the inner fold, every processed event is skipped. -/
theorem foldInner_skipped (env : Env) (k : Nat) :
    ∀ (evs : List ScoreEvent) (db : DB) (ev : ScoreEvent), ev ∈ evs →
      eventSkipped ev ((evs.foldl (runEvent env k) db).matchRows) := by
  intro evs
  induction evs with
  | nil => intro db ev h; cases h
  | cons e rest ih =>
    intro db ev hmem
    rw [List.foldl_cons]
    rcases List.mem_cons.mp hmem with rfl | h2
    · exact eventSkipped_mono (foldInner_matchSim env k rest (runEvent env k db ev))
        (runEvent_skipped_after env k db ev)
    · exact ih _ ev h2

/-- After the whole settlement fold, every event of the payload is skipped. -/
theorem foldOuter_skipped (env : Env) :
    ∀ (sd : List (Nat × List ScoreEvent)) (db : DB) (pr : Nat × List ScoreEvent)
      (ev : ScoreEvent), pr ∈ sd → ev ∈ pr.2 →
      eventSkipped ev
        ((sd.foldl (fun acc q => q.2.foldl (runEvent env q.1) acc) db).matchRows) := by
  intro sd
  induction sd with
  | nil => intro db pr ev h _; cases h
  | cons q rest ih =>
    intro db pr ev hpr hev
    rw [List.foldl_cons]
    rcases List.mem_cons.mp hpr with rfl | h2
    · exact eventSkipped_mono (foldOuter_matchSim env rest _)
        (foldInner_skipped env pr.1 pr.2 db ev hev)
    · exact ih _ pr ev h2 hev

/-- A skipped event leaves the state untouched (whatever the clock or the
category tables say). -/
theorem runEvent_eq_of_skipped (env : Env) (sk : Nat) (db : DB) (ev : ScoreEvent)
    (h : eventSkipped ev db.matchRows) : runEvent env sk db ev = db := by
  unfold runEvent
  by_cases hdata : ev.completed = false ∨ ev.scores.isEmpty = true
  · rw [if_pos hdata]
  · rw [if_neg hdata]
    cases hfind : db.matchRows.find? (fun x => decide (x.external_id = ev.id)) with
    | none => rfl
    | some m =>
      dsimp only
      rcases h with h1 | h2 | ⟨m2, hfind2, hrest⟩
      · exact absurd h1 hdata
      · rw [hfind] at h2
        cases h2
      · rw [hfind] at hfind2
        injection hfind2 with he
        subst he
        by_cases hcomp : m.status = .completed
        · rw [if_pos hcomp]
        · rw [if_neg hcomp]
          rcases hrest with hc | hp
          · exact absurd hc hcomp
          · rcases hps : parseScores m ev.scores with ⟨a, b⟩
            rw [hps] at hp
            cases a with
            | none => rfl
            | some hs =>
              cases b with
              | none => rfl
              | some as_ => cases hp

/-- With every event skipped, the inner fold is the identity. -/
theorem foldInner_id (env : Env) (k : Nat) :
    ∀ (evs : List ScoreEvent) (db : DB),
      (∀ ev ∈ evs, eventSkipped ev db.matchRows) →
      evs.foldl (runEvent env k) db = db := by
  intro evs
  induction evs with
  | nil => intro db _; rfl
  | cons e rest ih =>
    intro db h
    rw [List.foldl_cons, runEvent_eq_of_skipped env k db e (h e (List.mem_cons_self _ _))]
    exact ih db (fun ev hev => h ev (List.mem_cons_of_mem _ hev))

/-- With every event skipped, the whole settlement fold is the identity. -/
theorem foldOuter_id (env : Env) :
    ∀ (sd : List (Nat × List ScoreEvent)) (db : DB),
      (∀ pr ∈ sd, ∀ ev ∈ pr.2, eventSkipped ev db.matchRows) →
      sd.foldl (fun acc q => q.2.foldl (runEvent env q.1) acc) db = db := by
  intro sd
  induction sd with
  | nil => intro db _; rfl
  | cons q rest ih =>
    intro db h
    rw [List.foldl_cons, foldInner_id env q.1 q.2 db (h q (List.mem_cons_self _ _))]
    exact ih db (fun pr hpr ev hev => h pr (List.mem_cons_of_mem _ hpr) ev hev)

/-- C4: running the settlement pass a second time over the same score data is
a no-op — every match completed by the first pass is skipped (as is every
event the first pass skipped), no pick or bet is touched again, so the final
state after two runs equals the state after one run, whatever the second
run's clock. -/
theorem c4_settlement_idempotent (env env2 : Env)
    (scoreData : List (Nat × List ScoreEvent)) (db : DB) :
    settle_completed_matches env2 scoreData (settle_completed_matches env scoreData db)
      = settle_completed_matches env scoreData db := by
  unfold settle_completed_matches
  by_cases h0 : (db.bets.filter (fun b => decide (b.status = .pending))).isEmpty = true
  · rw [if_pos h0, if_pos h0]
  · rw [if_neg h0]
    by_cases h1 : ((scoreData.foldl (fun acc pr => pr.2.foldl (runEvent env pr.1) acc)
        db).bets.filter (fun b => decide (b.status = .pending))).isEmpty = true
    · rw [if_pos h1]
    · rw [if_neg h1]
      exact foldOuter_id env2 scoreData _
        (fun pr hpr ev hev => foldOuter_skipped env scoreData db pr ev hpr hev)

/-- Witness for C4 at the concrete settlement scenario. -/
theorem c4_settlement_idempotent_witness :
    settle_completed_matches envTest sdPayout
        (settle_completed_matches envTest sdPayout dbPayout)
      = settle_completed_matches envTest sdPayout dbPayout :=
  c4_settlement_idempotent envTest envTest sdPayout dbPayout


/-! ## Cancellation (C7) -/

/-- `updateFirst` on a list split around the first satisfying element
replaces exactly that element. -/
theorem updateFirst_append_cons {α : Type _} (p : α → Bool) (f : α → α) (a : α) :
    ∀ (l1 l2 : List α), (∀ x ∈ l1, p x = false) → p a = true →
      updateFirst p f (l1 ++ a :: l2) = l1 ++ f a :: l2
  | [], l2, _, ha => by
    rw [List.nil_append, updateFirst, if_pos ha, List.nil_append]
  | x :: l1, l2, hl, ha => by
    rw [List.cons_append, updateFirst,
      if_neg (by simp [hl x (List.mem_cons_self _ _)]),
      updateFirst_append_cons p f a l1 l2
        (fun z hz => hl z (List.mem_cons_of_mem _ hz)) ha,
      List.cons_append]

/-- C7 (counterexample): cancelling a pending stake-10 bet succeeds while the
owner's leaderboard entry stands at zero bets and zero wagered, and leaves
both counters at zero — `max(0, x − 1)` / `max(0, x − stake)` clamp rather
than decrement, so the entry is not decremented. -/
theorem c7_cancel_clamps_at_zero :
    (dbCancelClamp.lbs.map (fun lb => (lb.total_bets, lb.total_wagered)) = [(0, 0)]) ∧
    (dbCancelClamp.bets.map (fun b => b.stake) = [10]) ∧
    ((cancel_bet envTest 1 7 dbCancelClamp).map
      (fun d => d.lbs.map (fun lb => (lb.total_bets, lb.total_wagered)))
      = .ok [(0, 0)]) ∧
    ¬ (((0 : Int), (0 : Int)) = (0 - 1, 0 - 10)) := by
  refine ⟨rfl, rfl, rfl, by decide⟩

/-- C7 (amended): a pending bet owned by the requester is cancelled exactly
when every existing match referenced by its picks starts strictly after now
(otherwise a precondition error is raised and nothing is mutated); on success
the bet becomes `cancelled` with `actual_payout` equal to the stake, every
pick's result becomes `cancelled`, and — for the sport category the code
derives from the first pick's match — the first leaderboard row of the owner
in that category, when one exists, is actually replaced by its reversal
(bet count and wagered total decremented clamped at zero, the parlay count
likewise for a parlay, net profit recomputed) while every other row is left
untouched; when no such row exists the leaderboard is unchanged. -/
theorem c7_cancel_characterisation (env : Env) (bet_id : Nat) (user_id : Int)
    (db : DB) (bet : Bet)
    (hnodup : (db.bets.map (fun b => b.id)).Nodup)
    (hfind : db.bets.find? (fun b => decide (b.id = bet_id)) = some bet)
    (hstatus : bet.status = .pending)
    (howner : bet.user_id = user_id) :
    ((∃ p ∈ picksOf db bet_id, ∃ m,
        db.matchRows.find? (fun x => decide (x.id = p.match_id)) = some m ∧
          m.commence_time ≤ env.now) →
      ∃ e, cancel_bet env bet_id user_id db = .error e) ∧
    ((∀ p ∈ picksOf db bet_id, ∀ m,
        db.matchRows.find? (fun x => decide (x.id = p.match_id)) = some m →
          env.now < m.commence_time) →
      ∃ db', cancel_bet env bet_id user_id db = .ok db' ∧
        (∀ b ∈ db'.bets, b.id = bet_id →
          b.status = .cancelled ∧ b.actual_payout = (bet.stake : ℚ)) ∧
        (∀ p ∈ db'.picks, p.bet_id = bet_id → p.result = some BetStatus.cancelled) ∧
        (∀ p0 m0, (picksOf db bet_id).head? = some p0 →
          db.matchRows.find? (fun x => decide (x.id = p0.match_id)) = some m0 →
          ((∀ lb0, db.lbs.find? (fun lb => decide (lb.user_id = bet.user_id) &&
              decide (lb.sport_category = env.categoryOf m0.sport_key)) = some lb0 →
            ∃ l1 l2, db.lbs = l1 ++ lb0 :: l2 ∧
              db'.lbs = l1 ++ ({ lb0 with
                total_bets := max 0 (lb0.total_bets - 1)
                total_parlays := if bet.is_parlay then max 0 (lb0.total_parlays - 1)
                  else lb0.total_parlays
                total_wagered := max 0 (lb0.total_wagered - bet.stake)
                net_profit :=
                  lb0.total_won - max 0 (lb0.total_wagered - bet.stake) }) :: l2) ∧
          (db.lbs.find? (fun lb => decide (lb.user_id = bet.user_id) &&
              decide (lb.sport_category = env.categoryOf m0.sport_key)) = none →
            db'.lbs = db.lbs)))) := by
  have hbetid : bet.id = bet_id := by simpa using List.find?_some hfind
  constructor
  · rintro ⟨p, hp, m, hm, hle⟩
    have hany : ((picksOf db bet_id).any (fun p =>
        match db.matchRows.find? (fun x => decide (x.id = p.match_id)) with
        | some m => decide (m.commence_time ≤ env.now)
        | none => false)) = true := by
      rw [List.any_eq_true]
      refine ⟨p, hp, ?_⟩
      rw [hm]
      exact decide_eq_true hle
    unfold cancel_bet
    rw [hfind]
    dsimp only
    rw [if_neg (by simp [howner]), if_neg (by simp [hstatus]), if_pos hany]
    exact ⟨.matchStarted, rfl⟩
  · intro hfut
    have hany : ((picksOf db bet_id).any (fun p =>
        match db.matchRows.find? (fun x => decide (x.id = p.match_id)) with
        | some m => decide (m.commence_time ≤ env.now)
        | none => false)) = false := by
      rw [List.any_eq_false]
      intro p hp
      cases hm : db.matchRows.find? (fun x => decide (x.id = p.match_id)) with
      | none => simp
      | some m =>
        simp only [decide_eq_true_eq]
        exact not_le.mpr (hfut p hp m hm)
    unfold cancel_bet
    rw [hfind]
    dsimp only
    rw [if_neg (by simp [howner]), if_neg (by simp [hstatus]),
      if_neg (by simp [hany])]
    refine ⟨_, rfl, ?_, ?_, ?_⟩
    · -- the bet table
      rw [apply_ite DB.bets]
      dsimp only
      rw [ite_self]
      obtain ⟨l1, l2, heq, hl1, hupd⟩ := updateFirst_decomp
        (fun b : Bet => decide (b.id = bet_id)) _ hfind
      rw [hupd]
      intro b hb hbid
      rcases List.mem_append.mp hb with hb1 | hb2
      · have := hl1 b hb1
        rw [decide_eq_false_iff_not] at this
        exact absurd hbid this
      · rcases List.mem_cons.mp hb2 with rfl | hb3
        · exact ⟨rfl, rfl⟩
        · exfalso
          have hnd2 := hnodup
          rw [heq, List.map_append, List.map_cons] at hnd2
          have hcons := List.Nodup.of_append_right hnd2
          have hnotin := (List.nodup_cons.mp hcons).1
          have : bet.id ∈ l2.map (fun b => b.id) := by
            rw [hbetid, ← hbid]
            exact List.mem_map_of_mem _ hb3
          exact hnotin this
    · -- the pick table
      rw [apply_ite DB.picks]
      dsimp only
      rw [ite_self]
      intro p hp hpb
      rw [List.mem_map] at hp
      obtain ⟨p0, _, rfl⟩ := hp
      by_cases hc : p0.bet_id = bet_id
      · rw [if_pos hc]
      · rw [if_neg hc] at hpb ⊢
        exact absurd hpb hc
    · -- the leaderboard table
      intro p0 m0 hhead hm0
      rw [apply_ite DB.lbs]
      dsimp only
      simp only [hhead, hm0]
      constructor
      · intro lb0 hfindlb
        have hmem := List.mem_of_find?_eq_some hfindlb
        have hpredlb := List.find?_some hfindlb
        have hanylb : (db.lbs.any (fun lb => decide (lb.user_id = bet.user_id) &&
            decide (lb.sport_category = env.categoryOf m0.sport_key))) = true := by
          rw [List.any_eq_true]
          exact ⟨lb0, hmem, hpredlb⟩
        obtain ⟨l1, l2, heq, hl1, _⟩ := updateFirst_decomp
          (fun lb : Leaderboard => decide (lb.user_id = bet.user_id) &&
            decide (lb.sport_category = env.categoryOf m0.sport_key)) id hfindlb
        refine ⟨l1, l2, heq, ?_⟩
        rw [if_pos hanylb, heq,
          updateFirst_append_cons _ _ _ l1 l2 hl1 hpredlb]
        refine congrArg (fun t => l1 ++ t :: l2) ?_
        cases hpar : bet.is_parlay <;> simp [hpar]
      · intro hnone
        have hanylb : (db.lbs.any (fun lb => decide (lb.user_id = bet.user_id) &&
            decide (lb.sport_category = env.categoryOf m0.sport_key))) = false := by
          rw [List.any_eq_false]
          intro lb hlb
          rw [List.find?_eq_none] at hnone
          exact hnone lb hlb
        rw [if_neg (by simp [hanylb])]

/-- Witness for C7's amended claim at a scenario where the reversal is
observable: the owner's entry starts at 3 bets, 1 parlay, 50 wagered, 40 won
(net −10) and ends at 2 bets, 1 parlay, 40 wagered, net 0. -/
theorem c7_cancel_characterisation_witness :
    ∃ db', cancel_bet envTest 1 7 dbCancelRich = .ok db' ∧
      (dbCancelRich.lbs.map (fun lb =>
        (lb.total_bets, lb.total_parlays, lb.total_wagered, lb.net_profit))
        = [(3, 1, 50, -10)]) ∧
      (db'.lbs.map (fun lb =>
        (lb.total_bets, lb.total_parlays, lb.total_wagered, lb.net_profit))
        = [(2, 1, 40, 0)]) := by
  obtain ⟨db', hok, hbets, hpicks, hlb⟩ :=
    (c7_cancel_characterisation envTest 1 7 dbCancelRich
      { id := 1, user_id := 7, is_parlay := false, total_picks := 1, stake := 10
        potential_payout := 191/10, actual_payout := 0, status := .pending
        placed_at := 0, settled_at := none }
      (by decide) rfl rfl rfl).2 (by decide)
  obtain ⟨l1, l2, heq, hupd⟩ := (hlb _ _ rfl rfl).1 _ rfl
  refine ⟨db', hok, rfl, ?_⟩
  rcases l1 with _ | ⟨x, l1t⟩
  · rw [List.nil_append] at heq hupd
    have h1 : dbCancelRich.lbs.length = 1 := rfl
    have hlen : dbCancelRich.lbs.length = l2.length + 1 := by
      rw [heq]
      rfl
    have hl2 : l2 = [] := by
      apply List.length_eq_zero.mp
      omega
    subst hl2
    rw [hupd]
    decide
  · exfalso
    have h1 : dbCancelRich.lbs.length = 1 := rfl
    have h2 := congrArg List.length heq
    rw [List.length_append] at h2
    simp only [List.length_cons] at h2
    rw [h1] at h2
    omega

end Svidnet
